import Mathlib

/-!
Shallow embedding of the live-streaming prober (src/stream/stream.go):
the FLV tag reader, the MPEG-TS PES and PMT parsers, the HLS playlist
poller loop, the URL dispatcher, HTTP request construction, and the
jitter-buffer player simulator, together with theorems checking the
specification claims against the embedded code.

Machine integers are modelled as Nat / Int with explicit wrapping where
the Go code wraps (`u32`, `wrapI32`).  Go's float32 arithmetic in the
fps estimator and frame-duration computation is modelled by exact
rationals; Go duration values are nanosecond integers.  List indexing
uses a default of 0 where the Go code would panic on a short slice;
all theorems below are about inputs long enough for the Go code.
-/

namespace Httpping

/-- Truncation to the 32-bit unsigned range, Go `uint32` arithmetic. -/
def u32 (n : Nat) : Nat := n % 4294967296

/-- Two's-complement wrap of an integer into the Go `int32` range. -/
def wrapI32 (i : Int) : Int :=
  let m := i % 4294967296
  if m < 2147483648 then m else m - 4294967296

/-- Go conversion `int32(x)` applied to an unsigned value. -/
def toInt32 (n : Nat) : Int := wrapI32 (n : Int)

/-- Go conversion `uint32(x)` applied to a signed value. -/
def u32I (i : Int) : Nat := (i % 4294967296).toNat

/-- Packet-type constant `PktAudio = 0` from the source. -/
def PktAudio : Nat := 0

/-- Packet-type constant `PktVideo = 1` from the source. -/
def PktVideo : Nat := 1

/-- The `AVPacket` struct: packet type, pts in milliseconds, keyframe flag. -/
structure AVPacket where
  pktType : Nat
  pts : Nat
  keyframe : Bool
deriving DecidableEq

/-- The sentinel errors of the source (`ErrUnsupportedProtocol`,
`ErrInvaildTsPacket`, `ErrInvaildPESHeader`, `ErrTryAgain`,
`ErrNotLiveM3u8File`). -/
inductive StreamErr where
  | unsupportedProtocol
  | invalidTsPacket
  | invalidPESHeader
  | tryAgain
  | notLiveM3u8
deriving DecidableEq

/-- go-flv constant `tag.FrameTypeKeyFrame = 1`. -/
def frameTypeKeyFrame : Nat := 1

/-- go-flv constant `tag.AACPacketTypeRaw = 1`. -/
def aacPacketTypeRaw : Nat := 1

/-- The decoded payload of one FLV tag, as consumed by `FlvClient.Read`:
a video tag carries a frame type and a composition time (Go `int32`),
an audio tag carries its AAC packet type, and any other tag type is
grouped under `script`. -/
inductive FlvTagData where
  | video (frameType : Nat) (compositionTime : Int)
  | audio (aacPacketType : Nat)
  | script
deriving DecidableEq

/-- One decoded FLV tag: a `uint32` timestamp plus its payload. -/
structure FlvTag where
  timestamp : Nat
  tagData : FlvTagData
deriving DecidableEq

/-- `FlvClient.Read` on one successfully decoded tag.  Video tags emit a
packet with `pts = uint32(int32(Timestamp) + CompositionTime)` and
`keyframe = (FrameType == FrameTypeKeyFrame)`.  Audio tags emit only
when the AAC packet type is Raw, with `pts = Timestamp` and keyframe
false.  Everything else yields `ErrTryAgain`. -/
def flvRead (t : FlvTag) : Except StreamErr AVPacket :=
  match t.tagData with
  | .video frameType compositionTime =>
      .ok { pktType := PktVideo,
            pts := u32I (wrapI32 (toInt32 t.timestamp + compositionTime)),
            keyframe := decide (frameType = frameTypeKeyFrame) }
  | .audio aacPacketType =>
      if aacPacketType = aacPacketTypeRaw then
        .ok { pktType := PktAudio, pts := t.timestamp, keyframe := false }
      else
        .error .tryAgain
  | .script => .error .tryAgain

/-- Byte access `data[i]` on a byte slice; 0 where Go would panic on a
short slice (no theorem below depends on the out-of-range case). -/
def byteAt (l : List Nat) (i : Nat) : Nat := l.getD i 0

/-- The 24-bit `packet_start_code_prefix` read by `decodePES`. -/
def pesStartCode (d : List Nat) : Nat :=
  ((byteAt d 0) <<< 16) ||| ((byteAt d 1) <<< 8) ||| (byteAt d 2)

/-- The PES `streamId` byte (`data[3]` of the PES payload). -/
def pesStreamId (d : List Nat) : Nat := byteAt d 3

/-- The two `PTS_DTS_flags` bits of the PES optional header. -/
def ptsDtsFlags (d : List Nat) : Nat := ((byteAt d 7) &&& 0xc0) >>> 6

/-- The PTS reconstruction of `decodePES`, exactly as the Go `uint32`
expression evaluates: the `<< 30` term wraps mod 2^32, the remaining
terms fit.  Bytes 9..13 of the PES payload are the 5 PTS bytes. -/
def pesPts (d : List Nat) : Nat :=
  (u32 ((((byteAt d 9) >>> 1) &&& 0x07) <<< 30)) |||
    ((byteAt d 10) <<< 22) |||
    ((((byteAt d 11) >>> 1) &&& 0x7f) <<< 15) |||
    ((byteAt d 12) <<< 7) |||
    ((byteAt d 13) >>> 1)

/-- `HlsClient.decodePES`: check the start-code, skip stream ids without
an optional header, check the `10` marker bits, read `PTS_DTS_flags`,
verify the high nibble of the PTS field against the flag value,
reconstruct the PTS and divide by 90.  Control flow mirrors the source;
stream ids in the no-optional-header set and flag values other than
2 and 3 fall through to `ErrTryAgain`. -/
def decodePES (d : List Nat) (pktType : Nat) : Except StreamErr AVPacket :=
  if pesStartCode d ≠ 1 then .error .invalidPESHeader
  else if pesStreamId d = 188 ∨ pesStreamId d = 190 ∨ pesStreamId d = 191 ∨
      pesStreamId d = 240 ∨ pesStreamId d = 241 ∨ pesStreamId d = 255 ∨
      pesStreamId d = 242 ∨ pesStreamId d = 248 then .error .tryAgain
  else if (byteAt d 6) &&& 0xc0 ≠ 0x80 then .error .invalidPESHeader
  else if ptsDtsFlags d = 2 then
    if ((byteAt d 9) &&& 0xf0) >>> 4 ≠ 2 then .error .invalidPESHeader
    else .ok { pktType := pktType, pts := pesPts d / 90, keyframe := true }
  else if ptsDtsFlags d = 3 then
    if ((byteAt d 9) &&& 0xf0) >>> 4 ≠ 3 then .error .invalidPESHeader
    else .ok { pktType := pktType, pts := pesPts d / 90, keyframe := true }
  else .error .tryAgain

/-- One PMT stream entry `{elementaryPid, streamType}`. -/
structure PMTStream where
  elementaryPid : Nat
  streamType : Nat
deriving DecidableEq

/-- The `section_length` as `decodePMT` computes it.  The Go expression
is `int32((data[1]&0x0f)<<8) | int32(data[2])`: the shift happens at
byte width, so the `(data[1]&0x0f)<<8` term is truncated mod 256 (it is
always 0) before widening. -/
def pmtSectionLength (d : List Nat) : Int :=
  ((((((byteAt d 1) &&& 0x0f) <<< 8) % 256) ||| (byteAt d 2)) : Int)

/-- The `program_info_length` as `decodePMT` computes it, with the same
byte-width shift as `pmtSectionLength`. -/
def pmtProgramInfoLength (d : List Nat) : Int :=
  ((((((byteAt d 10) &&& 0x0f) <<< 8) % 256) ||| (byteAt d 11)) : Int)

/-- The stream-entry loop of `decodePMT`: while `i < bound` and the
remaining slice is non-empty, read a 5-byte entry and skip its
`ES_info_length` payload. -/
def pmtLoop (data : List Nat) (i bound : Int) : List PMTStream :=
  if h : i < bound ∧ data ≠ [] then
    let streamType := byteAt data 0
    let elementaryPid := (((byteAt data 1) <<< 8) ||| (byteAt data 2)) &&& 0x1fff
    let esInfoLength := (((byteAt data 3) &&& 0x0f) <<< 8) ||| (byteAt data 4)
    { elementaryPid := elementaryPid, streamType := streamType } ::
      pmtLoop (data.drop (5 + esInfoLength)) (i + 5) bound
  else []
termination_by data.length
decreasing_by
  simp only [List.length_drop]
  have hp : 0 < data.length := List.length_pos.mpr h.2
  omega

/-- `HlsClient.decodePMT`: parse the stream list of a PMT payload. -/
def decodePMT (d : List Nat) : List PMTStream :=
  pmtLoop (d.drop (12 + (pmtProgramInfoLength d).toNat)) 0
    (pmtSectionLength d - 9 - 5)

/-- The final store step of `decodePMT`: the stored PMT is replaced only
when the newly parsed list has at least one stream. -/
def pmtStore (old new : List PMTStream) : List PMTStream :=
  if new = [] then old else new

/-- The spec's reading of the PMT parser (`Modelled from the spec:` the
12-bit `section_length` / `program_info_length` reads of §4.C step 7,
which the Go code misses because of its byte-width shifts).  Used only
to exhibit the divergence of claim C4. -/
def decodePMTSpec (d : List Nat) : List PMTStream :=
  pmtLoop
    (d.drop (12 + (((((byteAt d 10) &&& 0x0f) <<< 8) ||| (byteAt d 11)))))
    0
    ((((((byteAt d 1) &&& 0x0f) <<< 8) ||| (byteAt d 2)) : Int) - 9 - 5)

/-- One entry of the HLS segment queue (`TsSegment{url, seqId}`). -/
structure TsSegment where
  url : String
  seqId : Nat
deriving DecidableEq

/-- One parsed media-playlist segment (URI plus sequence id), as handed
to the segment loop of `decodeM3u8` by the external m3u8 parser.  An
entry may be `none`: the Go parser's segment array can contain nil,
and the loop breaks on it. -/
structure M3u8Seg where
  uri : String
  seqId : Nat
deriving DecidableEq

/-- The poller-visible HLS client state touched by `decodeM3u8`. -/
structure HlsPollState where
  playlist : List TsSegment
  lastSeqId : Int
  secondM3u8Url : String
deriving DecidableEq

/-- Go `strings.HasPrefix`, on the character lists of the strings. -/
def goHasPfx (s p : String) : Bool := p.data.isPrefixOf s.data

/-- The segment loop of `HlsClient.decodeM3u8`: iterate the playlist
segments in order, break at a nil segment or at the first segment whose
`SeqId ≤ lastSeqId`; resolve relative URIs against scheme and host, and
update `lastSeqId` only in the relative-URI branch (as the source
does); append the segment to the shared queue. -/
def segLoop (scheme host : String) (segs : List (Option M3u8Seg))
    (st : HlsPollState) : HlsPollState :=
  match segs with
  | [] => st
  | none :: _ => st
  | some seg :: rest =>
    if (seg.seqId : Int) ≤ st.lastSeqId then st
    else
      let absolute := goHasPfx seg.uri ("http://") || goHasPfx seg.uri ("https://")
      let uri :=
        if absolute then seg.uri
        else if goHasPfx seg.uri ("/") then scheme ++ "://" ++ host ++ seg.uri
        else scheme ++ "://" ++ host ++ "/" ++ seg.uri
      let last := if absolute then st.lastSeqId else (seg.seqId : Int)
      segLoop scheme host rest
        { st with
          playlist := st.playlist ++ [{ url := uri, seqId := seg.seqId }],
          lastSeqId := last }

/-- The result of the external `m3u8.DecodeFrom` call, as `decodeM3u8`
consumes it: a master playlist (variant URI list), a media playlist
(closed flag plus segments), or a parse failure. -/
inductive M3u8Parse where
  | master (variants : List String)
  | media (closed : Bool) (segments : List (Option M3u8Seg))
  | parseFail

/-- The state effect of one `HlsClient.decodeM3u8` call: a parse failure
or a closed media playlist leaves the state unchanged (an error is
returned), a master playlist stores `Variants[0].URI` as
`secondM3u8Url`, and a live media playlist runs the segment loop. -/
def decodeM3u8 (scheme host : String) (p : M3u8Parse)
    (st : HlsPollState) : HlsPollState :=
  match p with
  | .parseFail => st
  | .master variants => { st with secondM3u8Url := variants.headD "" }
  | .media closed segs => if closed then st else segLoop scheme host segs st

/-- An outbound HTTP request as `newRequest` builds it: the URL and the
header entries set on it. -/
structure Request where
  url : String
  headers : List (String × String)
deriving DecidableEq

/-- `newRequest(url, header)`: a GET request for `url`; the entries of
the header map are set on the request when the map is non-nil. -/
def newRequest (url : String) (header : Option (List (String × String))) : Request :=
  { url := url, headers := match header with | none => [] | some h => h }

/-- The `FlvClient` fields relevant to request construction. -/
structure FlvClientCfg where
  url : String
  header : Option (List (String × String))
deriving DecidableEq

/-- The `HlsClient` fields set by the dispatcher plus its header map. -/
structure HlsClientCfg where
  url : String
  scheme : String
  host : String
  lastSeqId : Int
  header : Option (List (String × String))
deriving DecidableEq

/-- The client value `Prober.Do` selects. -/
inductive GoClient where
  | flv (cfg : FlvClientCfg)
  | hls (cfg : HlsClientCfg)
deriving DecidableEq

/-- A parsed URL as returned by Go's `url.Parse` (only the fields
`Prober.Do` reads). -/
structure GoURL where
  scheme : String
  host : String
  path : String

/-- The backward scan of Go `path.Ext` over the reversed character
list: stop at a slash with no extension, return the suffix from the
first dot encountered (the final dot of the path), accumulating the
characters already passed. -/
def extScan : List Char → List Char → List Char
  | [], _ => []
  | c :: rest, acc =>
    if c = '/' then []
    else if c = '.' then c :: acc
    else extScan rest (c :: acc)

/-- Go `path.Ext`: the suffix of the final slash-separated element of
the path starting at its final dot; empty when that element has no
dot. -/
def pathExt (p : String) : String := String.mk (extScan p.data.reverse [])

/-- The dispatch performed by `Prober.Do` after `url.Parse` succeeds:
schemes `http`/`https` only; extension `.flv` selects the FLV client,
`.m3u8` selects the HLS client with scheme and host recorded and
`lastSeqId` seeded to -1; anything else is `ErrUnsupportedProtocol`
with no client (and hence no `StreamInfo`).  Neither client is given
the prober's header map (the source sets only the fields shown). -/
def proberDispatch (pUrl : String) (u : GoURL) : Except StreamErr GoClient :=
  if u.scheme = "http" ∨ u.scheme = "https" then
    if pathExt u.path = ".flv" then
      .ok (.flv { url := pUrl, header := none })
    else if pathExt u.path = ".m3u8" then
      .ok (.hls { url := pUrl, scheme := u.scheme, host := u.host,
                  lastSeqId := -1, header := none })
    else .error .unsupportedProtocol
  else .error .unsupportedProtocol

/-- The request issued by `FlvClient.Connect`: `newRequest(c.url, nil)`
-- the header argument at the call site is the nil literal. -/
def flvConnectReq (c : FlvClientCfg) : Request := newRequest c.url none

/-- The request issued by `HlsClient.Connect`: `newRequest(c.url, nil)`. -/
def hlsConnectReq (c : HlsClientCfg) : Request := newRequest c.url none

/-- The segment GET issued by `HlsClient.Read`: `newRequest(url, nil)`. -/
def hlsSegmentReq (url : String) : Request := newRequest url none

/-- The playlist GET issued by `downloadM3u8`: `newRequest(url, nil)`. -/
def m3u8PollReq (url : String) : Request := newRequest url none

/-- The fps-estimation loop of `Player.Do` (lines 816-823): walk the
queue, keeping the previous pts reinterpreted as `int32`; a pair is
sampled when `int32(pkt.pts) > lastPts` and the `int32` difference is
below 100; the sampled difference is accumulated into `totalDuration`
with `int32` wrap-around.  Returns `(count, totalDuration)`. -/
def fpsLoop : List AVPacket → Int → Nat → Int → Nat × Int
  | [], _, count, total => (count, total)
  | pkt :: rest, lastPts, count, total =>
    let a := toInt32 pkt.pts
    if lastPts < a ∧ wrapI32 (a - lastPts) < 100 then
      fpsLoop rest a (count + 1) (wrapI32 (total + wrapI32 (a - lastPts)))
    else
      fpsLoop rest a count total

/-- The fps estimate of `Player.Do`: 30 when the accumulated duration is
zero, else `count / totalDuration * 1000` (float32 in the source,
modelled exactly over the rationals). -/
def estimateFps (vq : List AVPacket) : ℚ :=
  let first := vq.headD { pktType := 0, pts := 0, keyframe := false }
  let res := fpsLoop vq.tail (toInt32 first.pts) 0 0
  if res.2 = 0 then 30 else (res.1 : ℚ) / (res.2 : ℚ) * 1000

/-- Go's float-to-integer conversion truncates toward zero. -/
def truncQ (q : ℚ) : Int := if 0 ≤ q then Int.floor q else -(Int.floor (-q))

/-- `frameDuration = time.Duration(1000000.0/fps) * time.Microsecond`,
in nanoseconds. -/
def fdNs (fps : ℚ) : Int := truncQ (1000000 / fps) * 1000

/-- The player state: the two packet queues, the phase flags, the
durations (nanoseconds) and the `StreamInfo` playback fields the player
mutates.  Wall-clock instants are abstract rational milliseconds. -/
structure PState where
  bufferTimeMs : Nat
  vqueue : List AVPacket
  aqueue : List AVPacket
  startPlay : Bool
  hasVideo : Bool
  hasAudio : Bool
  rebuffer : Bool
  frameDuration : Int
  startTimeMs : ℚ
  lagTimeMs : ℚ
  firstVideoPktTimeMs : ℚ
  firstAudioPktTimeMs : ℚ
  totalLagTimeMs : ℚ
  totalLagCount : Nat
  videoFps : ℚ
deriving DecidableEq

/-- `NewPlayer`: clamp the buffer time to 30000 ms; queues empty, all
flags false, every other field at its Go zero value. -/
def initPlayer (playerBufferTimeMs : Nat) : PState :=
  { bufferTimeMs := if playerBufferTimeMs > 30000 then 30000 else playerBufferTimeMs,
    vqueue := [], aqueue := [],
    startPlay := false, hasVideo := false, hasAudio := false, rebuffer := false,
    frameDuration := 0, startTimeMs := 0, lagTimeMs := 0,
    firstVideoPktTimeMs := 0, firstAudioPktTimeMs := 0,
    totalLagTimeMs := 0, totalLagCount := 0, videoFps := 0 }

/-- An input to the player loop: a packet arriving on the channel, or a
ticker tick.  The context-cancellation case only reads state before
returning, so it is not a state transition.  `nowMs` is the wall clock
at the event. -/
inductive PEvent where
  | packet (pkt : AVPacket) (nowMs : ℚ)
  | tick (nowMs : ℚ)

/-- The `case pkt := <-p.ch` branch of `Player.Do`.  A video packet is
appended to `vqueue`; when playback has not started and the queue has
reached 60 packets the fps is estimated, `frameDuration` and `VideoFps`
are set, and if the buffered time reaches the configured buffer time
playback starts and `vqueue` is truncated to
`bufferTimeMs*ms/frameDuration` packets (only for a non-zero buffer
time).  An audio packet is appended to `aqueue`. -/
def stepPacket (s : PState) (pkt : AVPacket) (now : ℚ) : PState :=
  if pkt.pktType = PktVideo then
    let s1 := if s.hasVideo then s else { s with hasVideo := true, firstVideoPktTimeMs := now }
    let vq := s1.vqueue ++ [pkt]
    let s2 := { s1 with vqueue := vq }
    if s2.startPlay = false ∧ 60 ≤ vq.length then
      let fps := estimateFps vq
      let fd := fdNs fps
      let bufferTime : Int := (vq.length : Int) * fd
      let s3 := { s2 with videoFps := fps, frameDuration := fd }
      if (s3.bufferTimeMs : Int) * 1000000 ≤ bufferTime then
        let s4 := { s3 with startPlay := true, startTimeMs := now }
        if s4.bufferTimeMs ≠ 0 then
          let pktNum := ((Int.tdiv ((s4.bufferTimeMs : Int) * 1000000) fd) % 4294967296).toNat
          { s4 with vqueue := s4.vqueue.take pktNum }
        else s4
      else s3
    else s2
  else
    let s1 := if s.hasAudio then s else { s with hasAudio := true, firstAudioPktTimeMs := now }
    { s1 with aqueue := s1.aqueue ++ [pkt] }

/-- The dequeue part of the ticker branch, for the selected queue
(`isVid` true selects `vqueue`) and its frame duration: clear the
rebuffer flag and account lag time when enough is buffered again;
otherwise dequeue one packet, or enter rebuffering when the queue is
empty. -/
def tickDeq (s : PState) (isVid : Bool) (dur : Int) (now : ℚ) : PState :=
  let q := if isVid then s.vqueue else s.aqueue
  let bufferTime : Int := (q.length : Int) * dur
  let s1 :=
    if s.rebuffer ∧ (s.bufferTimeMs : Int) * 1000000 ≤ bufferTime then
      { s with rebuffer := false, totalLagTimeMs := s.totalLagTimeMs + (now - s.lagTimeMs) }
    else s
  if s1.rebuffer then s1
  else
    let q1 := if isVid then s1.vqueue else s1.aqueue
    if q1 = [] then
      { s1 with rebuffer := true, totalLagCount := s1.totalLagCount + 1, lagTimeMs := now }
    else if isVid then { s1 with vqueue := s1.vqueue.tail }
    else { s1 with aqueue := s1.aqueue.tail }

/-- The `case <-ticker.C` branch of `Player.Do`: nothing before
playback starts; with video, `aqueue` is cleared and `vqueue` is the
active queue; otherwise with audio the active queue is `aqueue` with
the never-initialised `audioFrameDuration` (zero).  When neither flag
is set the Go code dereferences a nil queue pointer; that case is
modelled as an unreachable no-op and proven unreachable while
`startPlay` holds (claim C9). -/
def stepTick (s : PState) (now : ℚ) : PState :=
  if s.startPlay then
    if s.hasVideo then tickDeq { s with aqueue := [] } true s.frameDuration now
    else if s.hasAudio then tickDeq s false 0 now
    else s
  else s

/-- The queue pointer the ticker branch selects: `some true` is
`&p.vqueue`, `some false` is `&p.aqueue`, `none` is the nil pointer. -/
def activeQueue (s : PState) : Option Bool :=
  if s.hasVideo then some true else if s.hasAudio then some false else none

/-- One iteration of the player loop. -/
def playerStep (s : PState) (e : PEvent) : PState :=
  match e with
  | .packet pkt now => stepPacket s pkt now
  | .tick now => stepTick s now

/-- The player state after a sequence of loop events from a fresh
player. -/
def playerRun (playerBufferTimeMs : Nat) (evs : List PEvent) : PState :=
  evs.foldl playerStep (initPlayer playerBufferTimeMs)

/-- The pts delta of one adjacent packet pair, taken between the
`int32` reinterpretations of the two pts values (no wrap on the
subtraction itself). -/
def fdiff (pr : AVPacket × AVPacket) : Int :=
  toInt32 pr.2.pts - toInt32 pr.1.pts

/-- The spec's sampling predicate: a delta is a sample when
`0 < Δ < 100` ms. -/
def isSample (d : Int) : Bool := decide (0 < d ∧ d < 100)

/-- The consecutive pts deltas of a queue. -/
def fpsDeltas (vq : List AVPacket) : List Int :=
  (vq.zip vq.tail).map fdiff

/-- The deltas the spec counts as fps samples (`Modelled from the spec:`
"include a sample only if 0 < Δ < 100 ms"). -/
def specFpsSamples (vq : List AVPacket) : List Int :=
  (fpsDeltas vq).filter isSample

/-- The fps estimate in the spec's words (`Modelled from the spec:`
"fps = count / totalDurationMs × 1000; default 30 when no valid
sample").  Used to compare against `estimateFps` for claim C8. -/
def specFps (vq : List AVPacket) : ℚ :=
  let samples := specFpsSamples vq
  if samples = [] then 30
  else (samples.length : ℚ) / ((samples.sum : Int) : ℚ) * 1000

/-- A PES payload whose PTS bits encode 90000 (1 s at 90 kHz) with
`PTS_DTS_flags = 2`: start code 00 00 01, stream id 0xE0, packet
length 0, marker+flags bytes 0x80 0x80, header length 5, PTS bytes
21 00 05 BF 21. -/
def pes90000 : List Nat :=
  [0x00, 0x00, 0x01, 0xe0, 0x00, 0x00, 0x80, 0x80, 0x05,
   0x21, 0x00, 0x05, 0xbf, 0x21]

/-- A PMT payload whose section_length bits encode 0x102 = 258 (high
nibble of byte 1 is 1) with zero program_info_length, followed by one
H.264 stream entry (type 0x1B, PID 0x100, ES info length 0). -/
def pmtEx : List Nat :=
  [0x02, 0xb1, 0x02, 0x00, 0x01, 0xc1, 0x00, 0x00, 0xe1, 0x00,
   0xf0, 0x00, 0x1b, 0xe1, 0x00, 0xf0, 0x00]

/-- First playlist poll of the C6 scenario: segments 5, 6, 7 with
relative URIs. -/
def poll1Rel : List (Option M3u8Seg) :=
  [some { uri := "a5.ts", seqId := 5 },
   some { uri := "a6.ts", seqId := 6 },
   some { uri := "a7.ts", seqId := 7 }]

/-- Second playlist poll of the C6 scenario: segments 6, 7, 8, 9 with
relative URIs. -/
def poll2Rel : List (Option M3u8Seg) :=
  [some { uri := "a6.ts", seqId := 6 },
   some { uri := "a7.ts", seqId := 7 },
   some { uri := "a8.ts", seqId := 8 },
   some { uri := "a9.ts", seqId := 9 }]

/-- First playlist poll of the C6 scenario with absolute URIs. -/
def poll1Abs : List (Option M3u8Seg) :=
  [some { uri := "http://h/a5.ts", seqId := 5 },
   some { uri := "http://h/a6.ts", seqId := 6 },
   some { uri := "http://h/a7.ts", seqId := 7 }]

/-- Second playlist poll of the C6 scenario with absolute URIs. -/
def poll2Abs : List (Option M3u8Seg) :=
  [some { uri := "http://h/a6.ts", seqId := 6 },
   some { uri := "http://h/a7.ts", seqId := 7 },
   some { uri := "http://h/a8.ts", seqId := 8 },
   some { uri := "http://h/a9.ts", seqId := 9 }]

/-- The HLS poll state right after the dispatcher seeds the client:
empty queue, `lastSeqId = -1`. -/
def hlsInit : HlsPollState :=
  { playlist := [], lastSeqId := -1, secondM3u8Url := "" }

/-- A 60-packet video queue whose first pts pair wraps when subtracted
as `int32` (2^31 then 2^31 - 1): the code's wrapped difference is -1,
which its condition accepts as a sample although the delta is not in
(0, 100). -/
def badVq : List AVPacket :=
  { pktType := 1, pts := 2147483648, keyframe := true } ::
    List.replicate 59 { pktType := 1, pts := 2147483647, keyframe := true }

/-- A benign 60-packet video queue with pts `33 * i`. -/
def vq33 : List AVPacket :=
  (List.range 60).map (fun i => { pktType := 1, pts := 33 * i, keyframe := false })

/-- A video packet with pts 0. -/
def pkt0 : AVPacket := { pktType := 1, pts := 0, keyframe := false }

/-- Sixty video packets with pts 0 arriving at time 0, enough to start
playback with a zero buffer time. -/
def evs60 : List PEvent := List.replicate 60 (PEvent.packet pkt0 0)

/-- The player state after n < 60 video packets with pts 0 from a fresh
zero-buffer player: n queued packets, video seen, playback not yet
started. -/
def vstate (n : Nat) : PState :=
  { initPlayer 0 with hasVideo := true, vqueue := List.replicate n pkt0 }

/-- The player state right after the 60th pts-0 video packet: fps
defaults to 30 (all deltas are 0), the frame duration is 33333 us, and
playback has started. -/
def vplay : PState :=
  { initPlayer 0 with hasVideo := true, startPlay := true,
                      vqueue := List.replicate 60 pkt0, videoFps := 30,
                      frameDuration := 33333000 }

theorem wrapI32_emod (x : Int) :
    (wrapI32 x) % 4294967296 = x % 4294967296 := by
  simp only [wrapI32]
  split_ifs <;> omega

theorem u32I_wrap_add (T : Nat) (C : Int) :
    u32I (wrapI32 (toInt32 T + C)) = ((((T : Int) + C) % 4294967296)).toNat := by
  unfold u32I toInt32
  simp only [wrapI32]
  split_ifs <;> omega

/-- C3: for every FLV video tag with timestamp T and composition time C
decoded by `FlvClient.Read`, the emitted packet has
`pts = (T + C) mod 2^32` and keyframe true iff the tag's frame type is
KeyFrame; for every FLV audio tag with timestamp T whose AAC packet
type is Raw, the emitted packet has `pts = T`. -/
theorem flvRead_pts_claim (T : Nat) (C : Int) (ft apt : Nat) (hT : T < 4294967296) :
    flvRead { timestamp := T, tagData := .video ft C } =
      .ok { pktType := PktVideo,
            pts := ((((T : Int) + C) % 4294967296)).toNat,
            keyframe := decide (ft = frameTypeKeyFrame) }
    ∧ (apt = aacPacketTypeRaw →
      flvRead { timestamp := T, tagData := .audio apt } =
        .ok { pktType := PktAudio, pts := T, keyframe := false }) := by
  refine ⟨?_, fun h => ?_⟩
  · simp only [flvRead, u32I_wrap_add]
  · simp [flvRead, h]

/-- Witness for C3 at timestamp 100, composition time -50, frame type
KeyFrame, and a raw AAC audio tag. -/
theorem flvRead_pts_claim_witness :
    flvRead { timestamp := 100, tagData := FlvTagData.video 1 (-50) } =
      .ok { pktType := PktVideo,
            pts := ((((100 : Int) + (-50)) % 4294967296)).toNat,
            keyframe := decide ((1 : Nat) = frameTypeKeyFrame) }
    ∧ flvRead { timestamp := 100, tagData := FlvTagData.audio 1 } =
        .ok { pktType := PktAudio, pts := 100, keyframe := false } :=
  ⟨(flvRead_pts_claim 100 (-50) 1 1 (by decide)).1,
   (flvRead_pts_claim 100 (-50) 1 1 (by decide)).2 (by decide)⟩

/-- C10: every FLV audio tag that `FlvClient.Read` turns into a packet
has `keyframe = false`. -/
theorem flv_audio_keyframe_false (T apt : Nat) (pkt : AVPacket)
    (h : flvRead { timestamp := T, tagData := .audio apt } = .ok pkt) :
    pkt.keyframe = false := by
  simp only [flvRead] at h
  split at h
  · injection h with h1
    rw [← h1]
  · exact Except.noConfusion h

/-- Witness for C10 at a raw AAC tag with timestamp 23. -/
theorem flv_audio_keyframe_false_witness :
    ({ pktType := PktAudio, pts := 23, keyframe := false } : AVPacket).keyframe = false :=
  flv_audio_keyframe_false 23 1
    { pktType := PktAudio, pts := 23, keyframe := false } (by rfl)

theorem segLoop_lastSeqId_mono (scheme host : String) (segs : List (Option M3u8Seg)) :
    ∀ st : HlsPollState, st.lastSeqId ≤ (segLoop scheme host segs st).lastSeqId := by
  induction segs with
  | nil => intro st; simp [segLoop]
  | cons hd tl ih =>
    intro st
    cases hd with
    | none => simp [segLoop]
    | some seg =>
      simp only [segLoop]
      split
      · exact le_refl _
      · refine le_trans ?_ (ih _)
        simp only []
        split
        · exact le_refl _
        · next hle _ =>
          exact le_of_lt (lt_of_not_le hle)

/-- C5: no `decodeM3u8` call ever decreases `HlsClient.lastSeqId`: the
watermark is monotonically non-decreasing across playlist polls. -/
theorem lastSeqId_monotone (scheme host : String) (p : M3u8Parse) (st : HlsPollState) :
    st.lastSeqId ≤ (decodeM3u8 scheme host p st).lastSeqId := by
  cases p with
  | parseFail => simp [decodeM3u8]
  | master variants => simp [decodeM3u8]
  | media closed segs =>
    simp only [decodeM3u8]
    split
    · exact le_refl _
    · exact segLoop_lastSeqId_mono scheme host segs st

/-- C6: the code violates the claimed segment ordering.  Two polls
delivering SeqIds [5,6,7] then [6,7,8,9] leave the queue at [5,6,7]
when the URIs are relative -- the second poll breaks at its first
segment (6 ≤ lastSeqId 7) and never reaches the unseen segments 8 and
9 -- and at [5,6,7,6,7,8,9] when the URIs are absolute, because
`lastSeqId` is updated only in the relative-URI branch.  No run
produces the claimed [5,6,7,8,9]. -/
theorem segment_queue_bug :
    ((decodeM3u8 ("http") ("h") (.media false poll2Rel)
        (decodeM3u8 ("http") ("h") (.media false poll1Rel) hlsInit)).playlist.map
          TsSegment.seqId = [5, 6, 7])
    ∧ ((decodeM3u8 ("http") ("h") (.media false poll2Abs)
        (decodeM3u8 ("http") ("h") (.media false poll1Abs) hlsInit)).playlist.map
          TsSegment.seqId = [5, 6, 7, 6, 7, 8, 9]) := by
  constructor <;> decide

/-- C2: the code never applies the configured header map.  Every call
site of `newRequest` (FLV connect, HLS connect, segment fetch,
playlist poll) passes a nil header, the dispatcher never copies
`Prober.Header` into the clients, and so the built requests carry no
headers even for a client whose header field is non-empty -- although
`newRequest` itself would apply a non-nil map. -/
theorem headers_never_applied :
    (flvConnectReq { url := "http://h/live.flv",
                     header := some [("X-Token", "abc")] }).headers = []
    ∧ (hlsConnectReq { url := "http://h/live.m3u8", scheme := "http", host := "h",
                       lastSeqId := -1, header := some [("X-Token", "abc")] }).headers = []
    ∧ (hlsSegmentReq ("http://h/seg0.ts")).headers = []
    ∧ (m3u8PollReq ("http://h/live.m3u8")).headers = []
    ∧ (newRequest ("http://h/live.flv") (some [("X-Token", "abc")])).headers =
        [("X-Token", "abc")]
    ∧ proberDispatch ("http://h/live.flv")
        { scheme := "http", host := "h", path := "/live.flv" } =
        .ok (.flv { url := "http://h/live.flv", header := none }) :=
  ⟨rfl, rfl, rfl, rfl, rfl, rfl⟩

/-- C4: the code parses the PMT `section_length` from the low byte only.
On a payload whose section_length bits encode 258, the byte-width shift
`(data[1]&0x0f)<<8` vanishes and the parsed length is 2, the entry loop
bound `2 - 9 - 5` is negative, and no stream is parsed -- while the
12-bit read of the claim gives 258 and yields the contained stream
entry.  The stored PMT is indeed replaced only when the parsed list is
non-empty, so here it is left unchanged. -/
theorem decodePMT_sectionLength_bug :
    pmtSectionLength pmtEx = 2
    ∧ (((((byteAt pmtEx 1) &&& 0x0f) <<< 8) ||| (byteAt pmtEx 2)) = 258)
    ∧ decodePMT pmtEx = []
    ∧ decodePMTSpec pmtEx = [{ elementaryPid := 256, streamType := 27 }]
    ∧ pmtStore [{ elementaryPid := 7, streamType := 15 }] (decodePMT pmtEx) =
        [{ elementaryPid := 7, streamType := 15 }] := by
  have hcode : decodePMT pmtEx = [] := by
    unfold decodePMT
    rw [pmtLoop.eq_def, dif_neg (by decide)]
  have hspec : decodePMTSpec pmtEx = [{ elementaryPid := 256, streamType := 27 }] := by
    unfold decodePMTSpec
    rw [pmtLoop.eq_def, dif_pos (by decide)]
    dsimp only
    rw [pmtLoop.eq_def, dif_neg (by decide)]
    decide
  refine ⟨by decide, by decide, hcode, hspec, ?_⟩
  rw [hcode]
  decide

/-- C7: `Prober.Do` returns a client only for scheme http/https with
path extension `.flv` (FLV client) or `.m3u8` (HLS client carrying the
URL's scheme and host with `lastSeqId` seeded to -1); any other scheme
or extension yields `ErrUnsupportedProtocol` and no client. -/
theorem prober_dispatch_claim (pUrl : String) (u : GoURL) :
    ((u.scheme = "http" ∨ u.scheme = "https") →
      (pathExt u.path = ".flv" →
        proberDispatch pUrl u = .ok (.flv { url := pUrl, header := none }))
      ∧ (pathExt u.path = ".m3u8" →
        proberDispatch pUrl u = .ok (.hls { url := pUrl, scheme := u.scheme,
                                            host := u.host, lastSeqId := -1,
                                            header := none }))
      ∧ (pathExt u.path ≠ ".flv" → pathExt u.path ≠ ".m3u8" →
        proberDispatch pUrl u = .error .unsupportedProtocol))
    ∧ (¬(u.scheme = "http" ∨ u.scheme = "https") →
      proberDispatch pUrl u = .error .unsupportedProtocol) := by
  constructor
  · intro hs
    refine ⟨fun he => ?_, fun he => ?_, fun h1 h2 => ?_⟩
    · unfold proberDispatch
      rw [if_pos hs, if_pos he]
    · unfold proberDispatch
      rw [if_pos hs, if_neg (by rw [he]; decide), if_pos he]
    · unfold proberDispatch
      rw [if_pos hs, if_neg h1, if_neg h2]
  · intro hs
    unfold proberDispatch
    rw [if_neg hs]

/-- Witness for C7: an ftp URL is rejected, and an http `.m3u8` URL
selects the HLS client with scheme, host and `lastSeqId = -1`. -/
theorem prober_dispatch_claim_witness :
    proberDispatch ("ftp://h/live.flv")
        { scheme := "ftp", host := "h", path := "/live.flv" } =
      .error .unsupportedProtocol
    ∧ proberDispatch ("http://h/live.m3u8")
        { scheme := "http", host := "h", path := "/live.m3u8" } =
      .ok (.hls { url := "http://h/live.m3u8", scheme := "http", host := "h",
                  lastSeqId := -1, header := none }) :=
  ⟨(prober_dispatch_claim ("ftp://h/live.flv")
      { scheme := "ftp", host := "h", path := "/live.flv" }).2 (by decide),
   ((prober_dispatch_claim ("http://h/live.m3u8")
      { scheme := "http", host := "h", path := "/live.m3u8" }).1
        (Or.inl rfl)).2.1 (by decide)⟩

theorem byteAt_lt (l : List Nat) (i : Nat) (h : ∀ b ∈ l, b < 256) :
    byteAt l i < 256 := by
  unfold byteAt
  rcases hg : l[i]? with _ | b
  · simp [List.getD_eq_getElem?_getD, hg]
  · have hb := h b (List.getElem?_mem hg)
    simpa [List.getD_eq_getElem?_getD, hg] using hb

theorem u32_lor (a b : Nat) (hb : b < 4294967296) :
    u32 (a ||| b) = (u32 a) ||| b := by
  have h32 : (4294967296 : Nat) = 2 ^ 32 := by norm_num
  unfold u32
  apply Nat.eq_of_testBit_eq
  intro i
  have key : ∀ x : Nat, (x % 4294967296).testBit i = (decide (i < 32) && x.testBit i) := by
    intro x
    rw [h32, Nat.testBit_mod_two_pow]
  simp only [Nat.testBit_lor, key]
  rcases Nat.lt_or_ge i 32 with hi | hi
  · simp [hi]
  · have hpow : (4294967296 : Nat) ≤ 2 ^ i := by
      rw [h32]
      exact Nat.pow_le_pow_right (by norm_num) hi
    have hbb : b.testBit i = false :=
      Nat.testBit_lt_two_pow (lt_of_lt_of_le hb hpow)
    simp [Nat.not_lt.mpr hi, hbb]

theorem pesPts_eq_claim (d : List Nat) (hb : ∀ b ∈ d, b < 256) :
    pesPts d =
      u32 (((((byteAt d 9) >>> 1) &&& 0x07) <<< 30) |||
        ((byteAt d 10) <<< 22) |||
        ((((byteAt d 11) >>> 1) &&& 0x7f) <<< 15) |||
        ((byteAt d 12) <<< 7) |||
        ((byteAt d 13) >>> 1)) := by
  have h10 := byteAt_lt d 10 hb
  have h12 := byteAt_lt d 12 hb
  have h13 := byteAt_lt d 13 hb
  have h11 : (((byteAt d 11) >>> 1) &&& 0x7f) ≤ 0x7f := Nat.and_le_right
  have t2 : (byteAt d 10) <<< 22 < 4294967296 := by
    rw [Nat.shiftLeft_eq]
    have : (2 : Nat) ^ 22 = 4194304 := by norm_num
    rw [this]; omega
  have t3 : ((((byteAt d 11) >>> 1) &&& 0x7f) <<< 15) < 4294967296 := by
    rw [Nat.shiftLeft_eq]
    have : (2 : Nat) ^ 15 = 32768 := by norm_num
    rw [this]; omega
  have t4 : (byteAt d 12) <<< 7 < 4294967296 := by
    rw [Nat.shiftLeft_eq]
    have : (2 : Nat) ^ 7 = 128 := by norm_num
    rw [this]; omega
  have t5 : (byteAt d 13) >>> 1 < 4294967296 := by
    rw [Nat.shiftRight_eq_div_pow]
    have := Nat.div_le_self (byteAt d 13) (2 ^ 1)
    omega
  rw [u32_lor _ _ t5, u32_lor _ _ t4, u32_lor _ _ t3, u32_lor _ _ t2]
  rfl

/-- C1: for every PES payload whose `PTS_DTS_flags` field is 2 or 3,
`decodePES` checks that the high nibble of the first PTS byte equals
the flag value (`ErrInvaildPESHeader` otherwise), reconstructs the PTS
as `(b0>>1)&7 << 30 | b1 << 22 | (b2>>1)&0x7F << 15 | b3 << 7 | b4>>1`
evaluated in `uint32` arithmetic, and divides it by 90; in particular
the payload whose PTS bits encode 90000 with flags 2 yields
`pts = 1000`. -/
theorem decodePES_pts_claim :
    (∀ (d : List Nat) (pt f : Nat),
      (∀ b ∈ d, b < 256) →
      pesStartCode d = 1 →
      ¬(pesStreamId d = 188 ∨ pesStreamId d = 190 ∨ pesStreamId d = 191 ∨
        pesStreamId d = 240 ∨ pesStreamId d = 241 ∨ pesStreamId d = 255 ∨
        pesStreamId d = 242 ∨ pesStreamId d = 248) →
      (byteAt d 6) &&& 0xc0 = 0x80 →
      ptsDtsFlags d = f → (f = 2 ∨ f = 3) →
      decodePES d pt =
        (if ((byteAt d 9) &&& 0xf0) >>> 4 = f then
          Except.ok ⟨pt,
            (u32 (((((byteAt d 9) >>> 1) &&& 0x07) <<< 30) |||
              ((byteAt d 10) <<< 22) |||
              ((((byteAt d 11) >>> 1) &&& 0x7f) <<< 15) |||
              ((byteAt d 12) <<< 7) |||
              ((byteAt d 13) >>> 1))) / 90,
            true⟩
         else Except.error StreamErr.invalidPESHeader))
    ∧ decodePES pes90000 PktVideo =
        Except.ok { pktType := PktVideo, pts := 1000, keyframe := true } := by
  constructor
  · intro d pt f hb h1 h2 h3 hf hf23
    rcases hf23 with rfl | rfl
    · by_cases hc : ((byteAt d 9) &&& 0xf0) >>> 4 = 2
      · simp [decodePES, h1, h2, h3, hf, hc, pesPts_eq_claim d hb]
      · simp [decodePES, h1, h2, h3, hf, hc]
    · by_cases hc : ((byteAt d 9) &&& 0xf0) >>> 4 = 3
      · simp [decodePES, h1, h2, h3, hf, hc, pesPts_eq_claim d hb]
      · simp [decodePES, h1, h2, h3, hf, hc]
  · rfl

/-- Witness for C1 at the 90000-ticks payload, flag value 2. -/
theorem decodePES_pts_claim_witness :
    decodePES pes90000 PktVideo =
      (if ((byteAt pes90000 9) &&& 0xf0) >>> 4 = 2 then
        Except.ok ⟨PktVideo,
          (u32 (((((byteAt pes90000 9) >>> 1) &&& 0x07) <<< 30) |||
            ((byteAt pes90000 10) <<< 22) |||
            ((((byteAt pes90000 11) >>> 1) &&& 0x7f) <<< 15) |||
            ((byteAt pes90000 12) <<< 7) |||
            ((byteAt pes90000 13) >>> 1))) / 90,
          true⟩
       else Except.error StreamErr.invalidPESHeader) :=
  decodePES_pts_claim.1 pes90000 PktVideo 2 (by decide) (by decide) (by decide)
    (by decide) (by decide) (Or.inl rfl)

theorem wrapI32_id (i : Int) (h1 : -2147483648 ≤ i) (h2 : i < 2147483648) :
    wrapI32 i = i := by
  simp only [wrapI32]
  split_ifs <;> omega

theorem isSample_sum_nonneg (ds : List Int) : 0 ≤ (ds.filter isSample).sum := by
  induction ds with
  | nil => simp
  | cons d tl ih =>
    by_cases h : 0 < d ∧ d < 100
    · have hb : isSample d = true := by simp [isSample, h]
      rw [List.filter_cons, if_pos hb, List.sum_cons]
      omega
    · have hb : ¬(isSample d = true) := by simp [isSample, h]
      rw [List.filter_cons, if_neg hb]
      exact ih

theorem isSample_sum_zero_iff (ds : List Int) :
    ((ds.filter isSample).sum = 0) ↔ (ds.filter isSample = []) := by
  induction ds with
  | nil => simp
  | cons d tl ih =>
    by_cases h : 0 < d ∧ d < 100
    · have hb : isSample d = true := by simp [isSample, h]
      have hs := isSample_sum_nonneg tl
      rw [List.filter_cons, if_pos hb, List.sum_cons]
      constructor
      · intro hzero
        exact absurd hzero (by omega)
      · intro hcons
        exact List.noConfusion hcons
    · have hb : ¬(isSample d = true) := by simp [isSample, h]
      rw [List.filter_cons, if_neg hb]
      exact ih

theorem fpsLoop_eq (l : List AVPacket) :
    ∀ (prev : AVPacket) (count : Nat) (total : Int),
      0 ≤ total →
      (∀ pr ∈ (prev :: l).zip l, -2147483648 < fdiff pr ∧ fdiff pr < 2147483648) →
      total + (specFpsSamples (prev :: l)).sum < 2147483648 →
      fpsLoop l (toInt32 prev.pts) count total =
        (count + (specFpsSamples (prev :: l)).length,
         total + (specFpsSamples (prev :: l)).sum) := by
  induction l with
  | nil =>
    intro prev count total h0 hno hsum
    simp [fpsLoop, specFpsSamples, fpsDeltas]
  | cons p r ih =>
    intro prev count total h0 hno hsum
    have hd := hno (prev, p) (by simp [List.zip_cons_cons])
    simp only [fdiff] at hd
    have hwrap : wrapI32 (toInt32 p.pts - toInt32 prev.pts) =
        toInt32 p.pts - toInt32 prev.pts :=
      wrapI32_id _ (le_of_lt hd.1) hd.2
    have hdeltas : fpsDeltas (prev :: p :: r) = fdiff (prev, p) :: fpsDeltas (p :: r) := rfl
    have hsplit : specFpsSamples (prev :: p :: r) =
        if isSample (fdiff (prev, p)) then fdiff (prev, p) :: specFpsSamples (p :: r)
        else specFpsSamples (p :: r) := by
      simp only [specFpsSamples, hdeltas, List.filter_cons]
    have hnotail : ∀ pr ∈ (p :: r).zip r, -2147483648 < fdiff pr ∧ fdiff pr < 2147483648 := by
      intro pr hpr
      exact hno pr (by simp [List.zip_cons_cons, hpr])
    simp only [fpsLoop]
    by_cases hcond : toInt32 prev.pts < toInt32 p.pts ∧
        wrapI32 (toInt32 p.pts - toInt32 prev.pts) < 100
    · rw [if_pos hcond, hwrap]
      have hdpos : 0 < toInt32 p.pts - toInt32 prev.pts := by omega
      have hsample : isSample (fdiff (prev, p)) = true := by
        simp only [isSample, fdiff, decide_eq_true_eq]
        refine ⟨hdpos, ?_⟩
        have h100 := hcond.2
        rw [hwrap] at h100
        exact h100
      have hcons : specFpsSamples (prev :: p :: r) =
          fdiff (prev, p) :: specFpsSamples (p :: r) := by
        rw [hsplit, if_pos hsample]
      rw [hcons, List.sum_cons] at hsum
      simp only [fdiff] at hsum
      have hsumtail : 0 ≤ (specFpsSamples (p :: r)).sum := isSample_sum_nonneg _
      have hnewtotal : wrapI32 (total + (toInt32 p.pts - toInt32 prev.pts)) =
          total + (toInt32 p.pts - toInt32 prev.pts) := by
        apply wrapI32_id
        · omega
        · omega
      rw [hnewtotal]
      rw [ih p (count + 1) (total + (toInt32 p.pts - toInt32 prev.pts)) (by omega) hnotail
        (by omega)]
      rw [hcons, List.sum_cons, List.length_cons]
      simp only [fdiff, Prod.mk.injEq]
      constructor
      · omega
      · omega
    · rw [if_neg hcond]
      have hsample : isSample (fdiff (prev, p)) = false := by
        simp only [isSample, fdiff, decide_eq_false_iff_not]
        intro hcontra
        apply hcond
        refine ⟨by omega, ?_⟩
        rw [hwrap]
        exact hcontra.2
      have hne : ¬(isSample (fdiff (prev, p)) = true) := by
        rw [hsample]
        exact Bool.false_ne_true
      have hcons : specFpsSamples (prev :: p :: r) = specFpsSamples (p :: r) := by
        rw [hsplit, if_neg hne]
      rw [hcons] at hsum
      rw [ih p count total h0 hnotail hsum]
      rw [hcons]

/-- C8 counterexample: on `badVq` the estimator counts the wrapped
int32 delta -1 of the first pts pair as a sample although no
consecutive delta lies in (0, 100), yielding fps -1000 where the
claimed rule gives the default 30. -/
theorem estimateFps_claim_counterexample :
    badVq.length = 60
    ∧ (fpsLoop badVq.tail
        (toInt32 (badVq.headD { pktType := 0, pts := 0, keyframe := false }).pts) 0 0).1 = 1
    ∧ specFpsSamples badVq = []
    ∧ estimateFps badVq = -1000
    ∧ specFps badVq = 30 := by
  have hloop : fpsLoop badVq.tail
      (toInt32 (badVq.headD { pktType := 0, pts := 0, keyframe := false }).pts) 0 0 =
      (1, -1) := by decide
  have hsamp : specFpsSamples badVq = [] := by decide
  refine ⟨by decide, by rw [hloop], hsamp, ?_, ?_⟩
  · simp only [estimateFps]
    rw [hloop]
    norm_num
  · simp only [specFps]
    rw [hsamp]
    norm_num

/-- C8 (amended): for every vqueue of at least 60 packets whose
consecutive int32 pts differences stay within the int32 range and
whose sampled total stays below 2^31 (no wrap-around, the normal
case), the estimator counts a consecutive delta as a sample exactly
when 0 < delta < 100 ms, computes fps = count / totalDuration * 1000
and defaults to 30 when there is no valid sample -- i.e. it agrees
with the spec-worded `specFps`. -/
theorem estimateFps_amended (vq : List AVPacket)
    (hlen : 60 ≤ vq.length)
    (hno : ∀ pr ∈ vq.zip vq.tail, -2147483648 < fdiff pr ∧ fdiff pr < 2147483648)
    (hsum : (specFpsSamples vq).sum < 2147483648) :
    estimateFps vq = specFps vq := by
  cases vq with
  | nil => simp at hlen
  | cons v0 tl =>
    have key := fpsLoop_eq tl v0 0 0 (le_refl 0) hno (by simpa using hsum)
    simp only [estimateFps, List.headD_cons, List.tail_cons]
    rw [key]
    dsimp only
    simp only [Nat.zero_add, Int.zero_add, zero_add]
    unfold specFps
    by_cases hz : specFpsSamples (v0 :: tl) = []
    · have hzero : (specFpsSamples (v0 :: tl)).sum = 0 := by
        rw [hz]
        rfl
      rw [if_pos hzero, if_pos hz]
    · have hnonzero : ¬((specFpsSamples (v0 :: tl)).sum = 0) := by
        intro hcontra
        exact hz ((isSample_sum_zero_iff (fpsDeltas (v0 :: tl))).mp hcontra)
      rw [if_neg hnonzero, if_neg hz]

/-- Witness for C8 (amended) at a benign queue with constant delta 33. -/
theorem estimateFps_amended_witness :
    estimateFps vq33 = specFps vq33 :=
  estimateFps_amended vq33 (by decide) (by decide) (by decide)

theorem stepPacket_video_hasVideo (s : PState) (pkt : AVPacket) (now : ℚ)
    (h : pkt.pktType = PktVideo) : (stepPacket s pkt now).hasVideo = true := by
  simp only [stepPacket, h]
  split_ifs <;> first | rfl | assumption | contradiction

theorem stepPacket_audio_flags (s : PState) (pkt : AVPacket) (now : ℚ)
    (h : ¬(pkt.pktType = PktVideo)) :
    (stepPacket s pkt now).startPlay = s.startPlay ∧
    (stepPacket s pkt now).hasVideo = s.hasVideo := by
  simp only [stepPacket, h]
  constructor <;> split_ifs <;> first | rfl | contradiction

theorem tickDeq_flags (s : PState) (isVid : Bool) (dur : Int) (now : ℚ) :
    (tickDeq s isVid dur now).startPlay = s.startPlay ∧
    (tickDeq s isVid dur now).hasVideo = s.hasVideo := by
  simp only [tickDeq]
  constructor <;> split_ifs <;> rfl

theorem stepTick_flags (s : PState) (now : ℚ) :
    (stepTick s now).startPlay = s.startPlay ∧
    (stepTick s now).hasVideo = s.hasVideo := by
  simp only [stepTick]
  split_ifs
  · exact ⟨(tickDeq_flags _ _ _ _).1, (tickDeq_flags _ _ _ _).2⟩
  · exact ⟨(tickDeq_flags _ _ _ _).1, (tickDeq_flags _ _ _ _).2⟩
  · exact ⟨rfl, rfl⟩
  · exact ⟨rfl, rfl⟩

theorem playerStep_inv (s : PState) (e : PEvent)
    (h : s.startPlay = true → s.hasVideo = true) :
    (playerStep s e).startPlay = true → (playerStep s e).hasVideo = true := by
  cases e with
  | packet pkt now =>
    simp only [playerStep]
    by_cases hv : pkt.pktType = PktVideo
    · intro _
      exact stepPacket_video_hasVideo s pkt now hv
    · intro hsp
      have hp := stepPacket_audio_flags s pkt now hv
      rw [hp.2]
      exact h (hp.1 ▸ hsp)
  | tick now =>
    simp only [playerStep]
    intro hsp
    have ht := stepTick_flags s now
    rw [ht.2]
    exact h (ht.1 ▸ hsp)

theorem playerRun_inv (evs : List PEvent) :
    ∀ s : PState, (s.startPlay = true → s.hasVideo = true) →
      ((evs.foldl playerStep s).startPlay = true →
       (evs.foldl playerStep s).hasVideo = true) := by
  induction evs with
  | nil =>
    intro s h
    simpa using h
  | cons e tl ih =>
    intro s h
    simp only [List.foldl_cons]
    exact ih _ (playerStep_inv s e h)

/-- C9: in every player state reachable from a fresh player,
`startPlay` implies `hasVideo`; hence on any tick taken while
`startPlay` holds the active queue pointer is `vqueue` and never the
nil pointer, and playback never starts for a stream without video. -/
theorem player_startPlay_hasVideo (playerBufferTimeMs : Nat) (evs : List PEvent) :
    ((playerRun playerBufferTimeMs evs).startPlay = true →
      (playerRun playerBufferTimeMs evs).hasVideo = true ∧
      activeQueue (playerRun playerBufferTimeMs evs) = some true)
    ∧ ((playerRun playerBufferTimeMs evs).hasVideo = false →
      (playerRun playerBufferTimeMs evs).startPlay = false) := by
  have hinv := playerRun_inv evs (initPlayer playerBufferTimeMs)
    (by intro hc; exact absurd hc (by simp [initPlayer]))
  simp only [playerRun]
  constructor
  · intro hsp
    have hv := hinv hsp
    refine ⟨hv, ?_⟩
    simp [activeQueue, hv]
  · intro hfalse
    by_cases hsp : (playerRun playerBufferTimeMs evs).startPlay = true
    · rw [hinv hsp] at hfalse
      exact absurd hfalse (by simp)
    · simpa using hsp

theorem vstate_step (n : Nat) (h1 : 1 ≤ n) (h2 : n + 1 < 60) :
    playerStep (vstate n) (PEvent.packet pkt0 0) = vstate (n + 1) := by
  have hvq : (vstate n).vqueue ++ [pkt0] = List.replicate (n + 1) pkt0 := by
    simp [vstate, List.replicate_succ']
  have hlen : ((vstate n).vqueue ++ [pkt0]).length = n + 1 := by
    rw [hvq, List.length_replicate]
  simp only [playerStep, stepPacket]
  rw [if_pos (show pkt0.pktType = PktVideo from rfl),
      if_pos (show (vstate n).hasVideo = true from rfl),
      if_neg (by rw [hlen]; omega), hvq]
  rfl

theorem vstate_fold (n : Nat) :
    ∀ k : Nat, 1 ≤ k → k + n ≤ 59 →
      (List.replicate n (PEvent.packet pkt0 0)).foldl playerStep (vstate k) =
        vstate (k + n) := by
  induction n with
  | zero =>
    intro k h1 h2
    simp
  | succ m ih =>
    intro k h1 h2
    rw [List.replicate_succ, List.foldl_cons, vstate_step k h1 (by omega),
        ih (k + 1) (by omega) (by omega)]
    congr 1
    omega

theorem vstate_init : playerStep (initPlayer 0) (PEvent.packet pkt0 0) = vstate 1 := by
  rfl

theorem vplay_step : playerStep (vstate 59) (PEvent.packet pkt0 0) = vplay := by
  have hvq : (vstate 59).vqueue ++ [pkt0] = List.replicate 60 pkt0 := by
    simp [vstate, List.replicate_succ']
  have hfps : estimateFps (List.replicate 60 pkt0) = 30 := by
    have hloop : fpsLoop (List.replicate 60 pkt0).tail
        (toInt32 ((List.replicate 60 pkt0).headD
          { pktType := 0, pts := 0, keyframe := false }).pts) 0 0 = (0, 0) := by
      decide
    simp only [estimateFps]
    rw [hloop]
    rfl
  have hfd : fdNs 30 = 33333000 := by
    simp only [fdNs, truncQ]
    norm_num
  simp only [playerStep, stepPacket]
  rw [if_pos (show pkt0.pktType = PktVideo from rfl),
      if_pos (show (vstate 59).hasVideo = true from rfl), hvq]
  rw [if_pos (show (vstate 59).startPlay = false ∧
        60 ≤ (List.replicate 60 pkt0).length from (by decide))]
  rw [hfps, hfd]
  rw [if_pos (show ((vstate 59).bufferTimeMs : Int) * 1000000 ≤
        ((List.replicate 60 pkt0).length : Int) * 33333000 from (by decide))]
  rw [if_neg (show ¬((vstate 59).bufferTimeMs ≠ 0) from (by decide))]
  rfl

/-- Witness for C9: after sixty pts-0 video packets a zero-buffer
player has started playback with video present and `vqueue` as the
active queue. -/
theorem player_startPlay_hasVideo_witness :
    (playerRun 0 evs60).hasVideo = true ∧ activeQueue (playerRun 0 evs60) = some true := by
  have hrun : playerRun 0 evs60 = vplay := by
    have h60 : evs60 = PEvent.packet pkt0 0 ::
        (List.replicate 58 (PEvent.packet pkt0 0) ++ [PEvent.packet pkt0 0]) := by
      rfl
    rw [playerRun, h60, List.foldl_cons, vstate_init, List.foldl_append,
        vstate_fold 58 1 (by omega) (by omega), List.foldl_cons, List.foldl_nil]
    exact vplay_step
  have hsp : (playerRun 0 evs60).startPlay = true := by
    rw [hrun]
    rfl
  exact (player_startPlay_hasVideo 0 evs60).1 hsp

end Httpping
